import Mathlib

/-
Verification of the command/check resolution engine, signature
introspection, permission merge, component callback lifecycle and button
validation of the discord-ext-slash library, shallowly embedded from
src/discord/ext/slash/command.py and src/discord/ext/slash/components.py.
-/

namespace Slash

/-- Runtime values returned by check coroutines. The source compares the
awaited result against the False singleton with the identity test, so the
embedding keeps distinct values for False, True, None, integers, strings. -/
inductive PyVal
| vFalse
| vTrue
| vNone
| vInt (n : Int)
| vStr (s : String)
deriving DecidableEq

/-- Identity of a collected check predicate: a node-level check possibly
bound to a cog instance, a cog-level blanket check identified by the cog
instance, or a bot-global check identified by its registration index. -/
inductive CheckRef
| own (nodeId : Nat) (boundCog : Option Nat)
| cogCheck (cogId : Nat)
| globalCheck (idx : Nat)
deriving DecidableEq

/-- A node of the command tree as seen by the resolution walk: its model
identity, its name, its owning cog instance if any, and whether that cog
carries a cog_check attribute. -/
structure Node where
  id : Nat
  name : String
  cog : Option Nat
  cogHasCheck : Bool
deriving DecidableEq

/-- One step of cog-check collection inside Command.can_run: when the parent
has a cog with a cog_check attribute that was not collected yet, append the
bound cog check. -/
def cogStep (p : Node) (cogs : List Nat) : List Nat :=
  match p.cog with
  | some c => if p.cogHasCheck ∧ c ∉ cogs then cogs ++ [c] else cogs
  | none => cogs

/-- The reference under which an ancestor appends its own check in the walk:
bound to its cog when it has one, plain otherwise. -/
def ownRef (p : Node) : CheckRef :=
  CheckRef.own p.id p.cog

/-- The while loop of Command.can_run: walk the parent chain, appending each
ancestor check and gathering cog blanket checks once each. The chain lists
the immediate parent first and the root last. -/
def canRunLoop : List Node → List CheckRef → List Nat → List CheckRef × List Nat
| [], parents, cogs => (parents, cogs)
| p :: rest, parents, cogs => canRunLoop rest (parents ++ [ownRef p]) (cogStep p cogs)

/-- Cog blanket checks gathered along a chain starting from an accumulator,
in encounter order, each at most once. -/
def cogAcc : List Node → List Nat → List Nat
| [], acc => acc
| p :: rest, acc => cogAcc rest (cogStep p acc)

/-- Cog blanket checks gathered along a chain. -/
def collectCogs (chain : List Node) : List Nat :=
  cogAcc chain []

/-- Command.can_run, collection part: the full ordered list of checks that
are evaluated for a leaf, given its ancestor chain (immediate parent first)
and the bot-global checks in registration order. The source extends the
walked list with the cog checks and the global checks, reverses, and
appends the leaf check unbound. -/
def can_run_order (leaf : Node) (chain : List Node) (globals : List Nat) :
    List CheckRef :=
  let pc := canRunLoop chain [] []
  (pc.1 ++ pc.2.map CheckRef.cogCheck ++ globals.map CheckRef.globalCheck).reverse
    ++ [CheckRef.own leaf.id none]

/-- Event trace of a command invocation: a check evaluated with its result,
an ancestor handler invoked, or the leaf handler invoked. -/
inductive Event
| checkEval (c : CheckRef) (r : PyVal)
| parentInvoked (nodeId : Nat)
| leafInvoked (nodeId : Nat)
deriving DecidableEq

/-- The evaluation loop of Command.can_run: run the collected checks in
order; a check denies exactly when its result is the False value; the loop
returns at the first denial. -/
def runChecks (res : CheckRef → PyVal) : List CheckRef → Bool × List Event
| [] => (true, [])
| c :: rest =>
  if res c = PyVal.vFalse then (false, [Event.checkEval c PyVal.vFalse])
  else
    let br := runChecks res rest
    (br.1, Event.checkEval c (res c) :: br.2)

/-- Command.qualname: the parent qualified name, a space, then the own
name. The chain lists the immediate parent first. -/
def qualname : List Node → String → String
| [], name => name
| p :: rest, name => qualname rest p.name ++ " " ++ name

/-- The collection loop of Command.invoke_parents. -/
def collectParentCoros : List Node → List Nat → List Nat
| [], acc => acc
| p :: rest, acc => collectParentCoros rest (acc ++ [p.id])

/-- Command.invoke_parents: invoke each ancestor handler, highest level
parent first. -/
def invoke_parents (chain : List Node) : List Event :=
  ((collectParentCoros chain []).reverse).map Event.parentInvoked

/-- Command.invoke: run the checks; on denial raise a CheckFailure naming
the qualified name and invoke nothing; otherwise invoke the ancestors root
first, then the leaf handler. Returns the event trace together with the
raised error message, if any. -/
def invoke (leaf : Node) (chain : List Node) (globals : List Nat)
    (res : CheckRef → PyVal) : List Event × Option String :=
  let checks := can_run_order leaf chain globals
  let rc := runChecks res checks
  if rc.1 then
    (rc.2 ++ invoke_parents chain ++ [Event.leafInvoked leaf.id], none)
  else
    (rc.2, some ("The check functions for " ++ qualname chain leaf.name
      ++ " failed."))

theorem canRunLoop_eq (l : List Node) : ∀ parents cogs,
    canRunLoop l parents cogs = (parents ++ l.map ownRef, cogAcc l cogs) := by
  induction l with
  | nil => intro parents cogs; simp [canRunLoop, cogAcc]
  | cons p rest ih =>
    intro parents cogs
    simp [canRunLoop, cogAcc, ih, List.append_assoc]

theorem can_run_order_eq (leaf : Node) (chain : List Node) (globals : List Nat) :
    can_run_order leaf chain globals =
      globals.reverse.map CheckRef.globalCheck
      ++ (collectCogs chain).reverse.map CheckRef.cogCheck
      ++ chain.reverse.map ownRef
      ++ [CheckRef.own leaf.id none] := by
  simp [can_run_order, canRunLoop_eq, collectCogs, List.map_reverse,
    List.append_assoc]

/-- C1: authorization collects and evaluates check predicates in exactly
this overall order: bot-global checks first (outermost), then the cog-level
blanket checks gathered once each from the ancestor chain, then the
ancestors own checks in root-to-leaf order (the reverse of the child-to-root
chain), and the leaf own check last. -/
theorem c1_check_order (leaf : Node) (chain : List Node) (globals : List Nat) :
    can_run_order leaf chain globals =
      globals.reverse.map CheckRef.globalCheck
      ++ (collectCogs chain).reverse.map CheckRef.cogCheck
      ++ chain.reverse.map ownRef
      ++ [CheckRef.own leaf.id none] :=
  can_run_order_eq leaf chain globals

theorem runChecks_fail (res : CheckRef → PyVal) (L : List CheckRef) (k : Nat)
    (hk : k < L.length)
    (hfail : res (L.getD k (CheckRef.globalCheck 0)) = PyVal.vFalse)
    (hpre : ∀ j < k, res (L.getD j (CheckRef.globalCheck 0)) ≠ PyVal.vFalse) :
    runChecks res L =
      (false, (L.take (k+1)).map fun c => Event.checkEval c (res c)) := by
  induction L generalizing k with
  | nil => simp at hk
  | cons c rest ih =>
    cases k with
    | zero =>
      simp only [List.getD_cons_zero] at hfail
      simp [runChecks, hfail]
    | succ k =>
      have hc : res c ≠ PyVal.vFalse := by
        have := hpre 0 (Nat.succ_pos k)
        simpa using this
      have hrec := ih k (by simpa using hk)
        (by simpa using hfail)
        (fun j hj => by
          have := hpre (j+1) (Nat.succ_lt_succ hj)
          simpa using this)
      simp [runChecks, hc, hrec]

theorem runChecks_pass (res : CheckRef → PyVal) (L : List CheckRef)
    (h : ∀ c ∈ L, res c ≠ PyVal.vFalse) :
    runChecks res L = (true, L.map fun c => Event.checkEval c (res c)) := by
  induction L with
  | nil => simp [runChecks]
  | cons c rest ih =>
    have hc := h c (by simp)
    have hrec := ih (fun x hx => h x (by simp [hx]))
    simp [runChecks, hc, hrec]

theorem collectParentCoros_eq (l : List Node) : ∀ acc,
    collectParentCoros l acc = acc ++ l.map Node.id := by
  induction l with
  | nil => intro acc; simp [collectParentCoros]
  | cons p rest ih => intro acc; simp [collectParentCoros, ih, List.append_assoc]

theorem invoke_parents_eq (chain : List Node) :
    invoke_parents chain =
      chain.reverse.map fun p => Event.parentInvoked p.id := by
  simp [invoke_parents, collectParentCoros_eq, List.map_reverse, List.map_map]

/-- C2: during authorization a check denies only by returning the False
value itself (any other result, None or a falsy integer included, passes);
evaluation stops at the first denial; a CheckFailure naming the leaf
qualified name is raised; and the trace contains no ancestor and no leaf
handler invocation. -/
theorem c2_denial (leaf : Node) (chain : List Node) (globals : List Nat)
    (res : CheckRef → PyVal) (k : Nat)
    (hk : k < (can_run_order leaf chain globals).length)
    (hfail : res ((can_run_order leaf chain globals).getD k
      (CheckRef.globalCheck 0)) = PyVal.vFalse)
    (hpre : ∀ j < k, res ((can_run_order leaf chain globals).getD j
      (CheckRef.globalCheck 0)) ≠ PyVal.vFalse) :
    invoke leaf chain globals res =
      (((can_run_order leaf chain globals).take (k+1)).map
          (fun c => Event.checkEval c (res c)),
       some ("The check functions for " ++ qualname chain leaf.name
         ++ " failed."))
    ∧ ∀ e ∈ (invoke leaf chain globals res).1, ∀ i : Nat,
        e ≠ Event.parentInvoked i ∧ e ≠ Event.leafInvoked i := by
  have h := runChecks_fail res _ k hk hfail hpre
  have hmain : invoke leaf chain globals res =
      (((can_run_order leaf chain globals).take (k+1)).map
          (fun c => Event.checkEval c (res c)),
       some ("The check functions for " ++ qualname chain leaf.name
         ++ " failed.")) := by
    simp [invoke, h]
  refine ⟨hmain, ?_⟩
  intro e he i
  rw [hmain] at he
  simp only [List.mem_map] at he
  obtain ⟨c, _, rfl⟩ := he
  exact ⟨by simp, by simp⟩

/-- Concrete instance data for the denial scenario: a leaf under one root
group, one global check returning the falsy integer zero which still
passes, and the root check returning False. -/
def leafW : Node := { id := 0, name := "leaf", cog := none, cogHasCheck := false }

def rootW : Node := { id := 1, name := "root", cog := none, cogHasCheck := false }

def resW : CheckRef → PyVal
| CheckRef.globalCheck _ => PyVal.vInt 0
| CheckRef.own 1 _ => PyVal.vFalse
| _ => PyVal.vNone

theorem c2_denial_witness :
    1 < (can_run_order leafW [rootW] [7]).length
    ∧ (invoke leafW [rootW] [7] resW).2 =
        some "The check functions for root leaf failed." := by
  constructor
  · decide
  · rw [(c2_denial leafW [rootW] [7] resW 1 (by decide) (by decide)
      (by decide)).1]
    rfl

/-- C3: when every collected check passes, the trace is the check
evaluations followed by each ancestor handler exactly once in root-to-leaf
order, all strictly before the single leaf handler invocation, and no error
is raised. -/
theorem c3_parents_then_leaf (leaf : Node) (chain : List Node)
    (globals : List Nat) (res : CheckRef → PyVal)
    (hpass : ∀ c ∈ can_run_order leaf chain globals, res c ≠ PyVal.vFalse)
    (hnodup : (chain.map Node.id).Nodup) :
    invoke leaf chain globals res =
      ((can_run_order leaf chain globals).map
          (fun c => Event.checkEval c (res c))
        ++ chain.reverse.map (fun p => Event.parentInvoked p.id)
        ++ [Event.leafInvoked leaf.id], none)
    ∧ (∀ p ∈ chain,
        (invoke leaf chain globals res).1.count (Event.parentInvoked p.id) = 1)
    ∧ (invoke leaf chain globals res).1.count (Event.leafInvoked leaf.id) = 1 := by
  have h := runChecks_pass res _ hpass
  have hmain : invoke leaf chain globals res =
      ((can_run_order leaf chain globals).map
          (fun c => Event.checkEval c (res c))
        ++ chain.reverse.map (fun p => Event.parentInvoked p.id)
        ++ [Event.leafInvoked leaf.id], none) := by
    simp [invoke, h, invoke_parents_eq, List.append_assoc]
  refine ⟨hmain, ?_, ?_⟩
  · intro p hp
    rw [hmain]
    have hchk : ((can_run_order leaf chain globals).map
        (fun c => Event.checkEval c (res c))).count
          (Event.parentInvoked p.id) = 0 := by
      apply List.count_eq_zero.mpr
      intro hmem
      simp only [List.mem_map] at hmem
      obtain ⟨c, _, hc⟩ := hmem
      exact Event.noConfusion hc
    have hpar : (chain.reverse.map
        (fun q => Event.parentInvoked q.id)).count
          (Event.parentInvoked p.id) = 1 := by
      have hcomp : chain.reverse.map (fun q => Event.parentInvoked q.id)
          = (chain.reverse.map Node.id).map Event.parentInvoked := by
        simp [List.map_map]
      rw [hcomp]
      rw [List.count_map_of_injective _ Event.parentInvoked
        (fun a b hab => by injection hab)]
      have : p.id ∈ chain.map Node.id := List.mem_map_of_mem Node.id hp
      rw [List.map_reverse, List.count_reverse]
      exact List.count_eq_one_of_mem hnodup this
    have hleaf : ([Event.leafInvoked leaf.id]).count
        (Event.parentInvoked p.id) = 0 := by
      simp
    simp only [List.count_append]
    rw [hchk, hpar, hleaf]
  · rw [hmain]
    have hchk : ((can_run_order leaf chain globals).map
        (fun c => Event.checkEval c (res c))).count
          (Event.leafInvoked leaf.id) = 0 := by
      apply List.count_eq_zero.mpr
      intro hmem
      simp only [List.mem_map] at hmem
      obtain ⟨c, _, hc⟩ := hmem
      exact Event.noConfusion hc
    have hpar : (chain.reverse.map
        (fun q => Event.parentInvoked q.id)).count
          (Event.leafInvoked leaf.id) = 0 := by
      apply List.count_eq_zero.mpr
      intro hmem
      simp only [List.mem_map] at hmem
      obtain ⟨q, _, hq⟩ := hmem
      exact Event.noConfusion hq
    simp only [List.count_append]
    rw [hchk, hpar]
    simp

/-- Concrete instance data for the all-pass scenario: a two-level chain
with every check returning True. -/
def leafP : Node := { id := 0, name := "sub", cog := none, cogHasCheck := false }

def midP : Node := { id := 1, name := "mid", cog := none, cogHasCheck := false }

def rootP : Node := { id := 2, name := "top", cog := none, cogHasCheck := false }

def resPass : CheckRef → PyVal := fun _ => PyVal.vTrue

theorem c3_parents_then_leaf_witness :
    (invoke leafP [midP, rootP] [] resPass).2 = none
    ∧ (invoke leafP [midP, rootP] [] resPass).1.count
        (Event.parentInvoked 2) = 1 := by
  have h := c3_parents_then_leaf leafP [midP, rootP] [] resPass
    (by decide) (by decide)
  refine ⟨by rw [h.1], ?_⟩
  have := h.2.1 rootP (by simp)
  exact this

theorem mem_cogStep (x : Nat) (p : Node) (acc : List Nat) :
    x ∈ cogStep p acc ↔
      x ∈ acc ∨ (p.cog = some x ∧ p.cogHasCheck = true) := by
  unfold cogStep
  cases hp : p.cog with
  | none => simp [hp]
  | some c =>
    show (x ∈ if p.cogHasCheck = true ∧ c ∉ acc then acc ++ [c] else acc) ↔
      (x ∈ acc ∨ some c = some x ∧ p.cogHasCheck = true)
    by_cases hc : p.cogHasCheck = true ∧ c ∉ acc
    · rw [if_pos hc]
      simp only [List.mem_append, List.mem_singleton, Option.some.injEq]
      constructor
      · rintro (h | rfl)
        · exact Or.inl h
        · exact Or.inr ⟨rfl, hc.1⟩
      · rintro (h | ⟨rfl, _⟩)
        · exact Or.inl h
        · exact Or.inr rfl
    · rw [if_neg hc]
      push_neg at hc
      simp only [Option.some.injEq]
      constructor
      · exact Or.inl
      · rintro (h | ⟨rfl, hh⟩)
        · exact h
        · exact hc hh

theorem mem_cogAcc (x : Nat) (l : List Node) : ∀ acc,
    x ∈ cogAcc l acc ↔
      x ∈ acc ∨ ∃ p ∈ l, p.cog = some x ∧ p.cogHasCheck = true := by
  induction l with
  | nil => intro acc; simp [cogAcc]
  | cons p rest ih =>
    intro acc
    rw [cogAcc, ih, mem_cogStep]
    simp only [List.mem_cons]
    constructor
    · rintro ((hx | hp) | ⟨q, hq, hqc⟩)
      · exact Or.inl hx
      · exact Or.inr ⟨p, Or.inl rfl, hp⟩
      · exact Or.inr ⟨q, Or.inr hq, hqc⟩
    · rintro (hx | ⟨q, (rfl | hq), hqc⟩)
      · exact Or.inl (Or.inl hx)
      · exact Or.inl (Or.inr hqc)
      · exact Or.inr ⟨q, hq, hqc⟩

/-- A leaf command owned by cog 7, with the cog supplying a cog_check, and
no parent group. -/
def cogLeaf : Node := { id := 0, name := "cmd", cog := some 7, cogHasCheck := true }

/-- C4 counterexample: for a command owned by a cog that supplies a blanket
cog_check but having no parent group, authorization collects only the leaf
own check; the owning cog blanket check is not evaluated, contrary to the
claim. -/
theorem c4_counterexample :
    can_run_order cogLeaf [] [] = [CheckRef.own 0 none]
    ∧ CheckRef.cogCheck 7 ∉ can_run_order cogLeaf [] [] := by
  decide

/-- C4 amended: a cog blanket check is evaluated for an invocation exactly
when some ancestor in the parent chain carries a cog with that identity and
a cog_check attribute; the leaf own cog is never consulted by can_run. -/
theorem c4_cog_checks_from_ancestors_only (leaf : Node) (chain : List Node)
    (globals : List Nat) (c : Nat) :
    CheckRef.cogCheck c ∈ can_run_order leaf chain globals
      ↔ ∃ p ∈ chain, p.cog = some c ∧ p.cogHasCheck = true := by
  rw [can_run_order_eq]
  have hglob : CheckRef.cogCheck c ∉
      globals.reverse.map CheckRef.globalCheck := by
    intro hmem
    simp only [List.mem_map] at hmem
    obtain ⟨i, _, hi⟩ := hmem
    exact CheckRef.noConfusion hi
  have hown : CheckRef.cogCheck c ∉ chain.reverse.map ownRef := by
    intro hmem
    simp only [List.mem_map] at hmem
    obtain ⟨p, _, hp⟩ := hmem
    exact CheckRef.noConfusion hp
  have hleafref : CheckRef.cogCheck c ∉ [CheckRef.own leaf.id none] := by
    simp
  simp only [List.mem_append, List.mem_singleton]
  constructor
  · rintro (((h | h) | h) | h)
    · exact absurd h hglob
    · simp only [List.mem_map, List.mem_reverse] at h
      obtain ⟨x, hx, hxc⟩ := h
      injection hxc with hxc
      subst hxc
      exact ((mem_cogAcc x chain []).mp hx).resolve_left (by simp)
    · exact absurd h hown
    · exact absurd (List.mem_singleton.mpr h) hleafref
  · intro h
    left; left; right
    simp only [List.mem_map, List.mem_reverse]
    exact ⟨c, (mem_cogAcc c chain []).mpr (Or.inr h), rfl⟩

/-- Modelled from the spec: the OptionSchema data model of section 3 — the
source file option.py is not under src. Fields: optional name, description,
required flag and closed choice set. -/
structure SOption where
  name : Option String
  description : String
  required : Bool
  choices : List String
deriving DecidableEq

/-- Modelled from the spec: clone produces an independent copy, so in value
semantics it is the identity. -/
def SOption.clone (o : SOption) : SOption := o

/-- Parameter annotation as seen after lazy string resolution (a failing
resolution yields empty): no annotation, an Option instance, a ChoiceEnum
subclass carrying its member values, a Context subclass identified by a
type tag, or some other type. -/
inductive Ann
| empty
| opt (o : SOption)
| choiceEnum (values : List String)
| ctx (t : Nat)
| otherType
deriving DecidableEq

/-- A declared handler parameter: name, annotation, and whether it has a
default value. -/
structure Param where
  name : String
  ann : Ann
  hasDefault : Bool
deriving DecidableEq

/-- The validity test of the constructor loop: an Option instance, a
ChoiceEnum subclass or a Context subclass. -/
def validAnn : Ann → Bool
| Ann.opt _ => true
| Ann.choiceEnum _ => true
| Ann.ctx _ => true
| _ => false

/-- A required parameter with no valid annotation. -/
def invalidReq (p : Param) : Bool :=
  !(validAnn p.ann) && !p.hasDefault

/-- Modelled from the spec: synthesize an OptionSchema wrapping the members
of a ChoiceEnum as its choices (the Option construction with the enum as
description lives in option.py, not under src). -/
def optionFromChoices (vs : List String) : SOption :=
  { name := none, description := "", required := false, choices := vs }

/-- Storing one Option-annotated parameter: clone the prototype, set
required to true when the parameter has no default, and set the clone name
from the parameter name when the prototype left it unset. -/
def storeOption (proto : SOption) (pname : String) (hasDefault : Bool) :
    SOption :=
  let t := proto.clone
  let t := if !hasDefault then { t with required := true } else t
  if t.name = none then { t with name := some pname } else t

/-- Processing one explicitly Option-annotated parameter: because the
mutations are applied to the clone, the prototype comes out of the
construction unmodified; the pair holds the prototype as the construction
leaves it together with the stored option. -/
def processOptionParam (proto : SOption) (pname : String) (hasDefault : Bool) :
    SOption × SOption :=
  (proto, storeOption proto pname hasDefault)

/-- Construction-time definition errors of the Command constructor:
missing description (ValueError), a second required parameter without a
valid annotation (TypeError), and no Context-annotated parameter
(ValueError). -/
inductive CmdError
| missingDescription
| invalidAnn
| missingContext
deriving DecidableEq

/-- Result of a successful Command construction: the bound context
parameter (name and type tag) and the ordered option mapping. -/
structure CmdData where
  ctxArg : String × Nat
  options : List (String × SOption)
deriving DecidableEq

/-- The parameter loop of the Command constructor: tolerate the first
required parameter with no valid annotation as an assumed self receiver and
fail on a second; bind each Context-annotated parameter (a later one
overwrites an earlier one); store options for Option and ChoiceEnum
annotations in declaration order. -/
def scanParams : List Param → Bool → Option (String × Nat) →
    List (String × SOption) →
    Except CmdError (Option (String × Nat) × List (String × SOption))
| [], _, ctxArg, opts => Except.ok (ctxArg, opts)
| p :: rest, foundSelf, ctxArg, opts =>
  if invalidReq p then
    if !foundSelf then scanParams rest true ctxArg opts
    else Except.error CmdError.invalidAnn
  else
    match p.ann with
    | Ann.ctx t => scanParams rest foundSelf (some (p.name, t)) opts
    | Ann.choiceEnum vs =>
        scanParams rest foundSelf ctxArg
          (opts ++ [(p.name, storeOption (optionFromChoices vs) p.name
            p.hasDefault)])
    | Ann.opt o =>
        scanParams rest foundSelf ctxArg
          (opts ++ [(p.name, storeOption o p.name p.hasDefault)])
    | _ => scanParams rest foundSelf ctxArg opts

/-- The Command constructor around the parameter scan: the description must
be present and nonempty, then the scan runs, then the context argument must
have been bound. -/
def commandInit (description : Option String) (params : List Param) :
    Except CmdError CmdData :=
  match description with
  | none => Except.error CmdError.missingDescription
  | some d =>
    if d = "" then Except.error CmdError.missingDescription
    else
      match scanParams params false none [] with
      | Except.error e => Except.error e
      | Except.ok (none, _) => Except.error CmdError.missingContext
      | Except.ok (some c, opts) => Except.ok { ctxArg := c, options := opts }

/-- The last Context-annotated parameter of a list, the one the scan leaves
bound. -/
def lastCtx : List Param → Option (String × Nat)
| [] => none
| p :: rest =>
  match lastCtx rest with
  | some x => some x
  | none =>
    match p.ann with
    | Ann.ctx t => some (p.name, t)
    | _ => none

/-- The options the scan stores for a parameter list, in declaration
order. -/
def builtOpts : List Param → List (String × SOption)
| [] => []
| p :: rest =>
  (match p.ann with
   | Ann.opt o => [(p.name, storeOption o p.name p.hasDefault)]
   | Ann.choiceEnum vs =>
       [(p.name, storeOption (optionFromChoices vs) p.name p.hasDefault)]
   | _ => []) ++ builtOpts rest

/-- Number of required parameters without a valid annotation. -/
def invCount (l : List Param) : Nat := l.countP (fun p => invalidReq p)

/-- The context binding after scanning a list on top of an incoming
binding. -/
def pickCtx (l : List Param) (c : Option (String × Nat)) :
    Option (String × Nat) :=
  match lastCtx l with
  | some x => some x
  | none => c

theorem lastCtx_cons (p : Param) (rest : List Param) :
    lastCtx (p :: rest) =
      match lastCtx rest with
      | some x => some x
      | none =>
        match p.ann with
        | Ann.ctx t => some (p.name, t)
        | _ => none := rfl

theorem builtOpts_cons (p : Param) (rest : List Param) :
    builtOpts (p :: rest) =
      (match p.ann with
       | Ann.opt o => [(p.name, storeOption o p.name p.hasDefault)]
       | Ann.choiceEnum vs =>
           [(p.name, storeOption (optionFromChoices vs) p.name p.hasDefault)]
       | _ => []) ++ builtOpts rest := rfl

theorem scanParams_eq (l : List Param) : ∀ (fs : Bool) ctxArg opts,
    scanParams l fs ctxArg opts =
      if 2 ≤ invCount l + (if fs then 1 else 0)
      then Except.error CmdError.invalidAnn
      else Except.ok (pickCtx l ctxArg, opts ++ builtOpts l) := by
  induction l with
  | nil =>
    intro fs ctxArg opts
    cases fs <;> simp [scanParams, invCount, pickCtx, lastCtx, builtOpts]
  | cons p rest ih =>
    intro fs ctxArg opts
    have hone : (if (true : Bool) = true then (1:Nat) else 0) = 1 := rfl
    have hzero : (if (false : Bool) = true then (1:Nat) else 0) = 0 := rfl
    by_cases hp : invalidReq p = true
    · have hann : validAnn p.ann = false := by
        unfold invalidReq at hp
        cases h : validAnn p.ann
        · rfl
        · rw [h] at hp; simp at hp
      have hcount : invCount (p :: rest) = invCount rest + 1 := by
        unfold invCount
        rw [List.countP_cons]
        simp [hp]
      have hlast : lastCtx (p :: rest) = lastCtx rest := by
        rw [lastCtx_cons]
        cases lastCtx rest with
        | some x => rfl
        | none =>
          cases ha : p.ann <;> first
            | rfl
            | (rw [ha] at hann; exact absurd hann (by simp [validAnn]))
      have hopts : builtOpts (p :: rest) = builtOpts rest := by
        rw [builtOpts_cons]
        cases ha : p.ann <;> first
          | rfl
          | (rw [ha] at hann; exact absurd hann (by simp [validAnn]))
      have hpick : pickCtx (p :: rest) ctxArg = pickCtx rest ctxArg := by
        unfold pickCtx
        rw [hlast]
      cases fs with
      | false =>
        rw [scanParams, if_pos hp, if_pos (show (!false) = true from rfl)]
        rw [ih true ctxArg opts, hcount, hpick, hopts, hone, hzero]
      | true =>
        rw [scanParams, if_pos hp,
          if_neg (show ¬ ((!true) = true) by simp)]
        rw [hcount, hone]
        rw [if_pos (by omega)]
    · have hcount : invCount (p :: rest) = invCount rest := by
        unfold invCount
        rw [List.countP_cons]
        simp [hp]
      cases ha : p.ann with
      | ctx t =>
        rw [scanParams, if_neg hp, ha]
        show scanParams rest fs (some (p.name, t)) opts
          = if 2 ≤ invCount (p :: rest) + (if fs then 1 else 0)
            then Except.error CmdError.invalidAnn
            else Except.ok (pickCtx (p :: rest) ctxArg,
              opts ++ builtOpts (p :: rest))
        rw [ih fs (some (p.name, t)) opts, hcount]
        have hpick : pickCtx (p :: rest) ctxArg
            = pickCtx rest (some (p.name, t)) := by
          unfold pickCtx
          rw [lastCtx_cons, ha]
          cases lastCtx rest <;> rfl
        have hopts : builtOpts (p :: rest) = builtOpts rest := by
          rw [builtOpts_cons, ha]
          rfl
        rw [hpick, hopts]
      | opt o =>
        rw [scanParams, if_neg hp, ha]
        show scanParams rest fs ctxArg
            (opts ++ [(p.name, storeOption o p.name p.hasDefault)])
          = if 2 ≤ invCount (p :: rest) + (if fs then 1 else 0)
            then Except.error CmdError.invalidAnn
            else Except.ok (pickCtx (p :: rest) ctxArg,
              opts ++ builtOpts (p :: rest))
        rw [ih fs ctxArg (opts ++ [(p.name, storeOption o p.name p.hasDefault)]),
          hcount]
        have hpick : pickCtx (p :: rest) ctxArg = pickCtx rest ctxArg := by
          unfold pickCtx
          rw [lastCtx_cons, ha]
          cases lastCtx rest <;> rfl
        have hopts : builtOpts (p :: rest)
            = (p.name, storeOption o p.name p.hasDefault) :: builtOpts rest := by
          rw [builtOpts_cons, ha]
          rfl
        rw [hpick, hopts]
        simp [List.append_assoc]
      | choiceEnum vs =>
        rw [scanParams, if_neg hp, ha]
        show scanParams rest fs ctxArg
            (opts ++ [(p.name,
              storeOption (optionFromChoices vs) p.name p.hasDefault)])
          = if 2 ≤ invCount (p :: rest) + (if fs then 1 else 0)
            then Except.error CmdError.invalidAnn
            else Except.ok (pickCtx (p :: rest) ctxArg,
              opts ++ builtOpts (p :: rest))
        rw [ih fs ctxArg (opts ++ [(p.name,
          storeOption (optionFromChoices vs) p.name p.hasDefault)]), hcount]
        have hpick : pickCtx (p :: rest) ctxArg = pickCtx rest ctxArg := by
          unfold pickCtx
          rw [lastCtx_cons, ha]
          cases lastCtx rest <;> rfl
        have hopts : builtOpts (p :: rest)
            = (p.name, storeOption (optionFromChoices vs) p.name p.hasDefault)
              :: builtOpts rest := by
          rw [builtOpts_cons, ha]
          rfl
        rw [hpick, hopts]
        simp [List.append_assoc]
      | empty =>
        rw [scanParams, if_neg hp, ha]
        show scanParams rest fs ctxArg opts
          = if 2 ≤ invCount (p :: rest) + (if fs then 1 else 0)
            then Except.error CmdError.invalidAnn
            else Except.ok (pickCtx (p :: rest) ctxArg,
              opts ++ builtOpts (p :: rest))
        rw [ih fs ctxArg opts, hcount]
        have hpick : pickCtx (p :: rest) ctxArg = pickCtx rest ctxArg := by
          unfold pickCtx
          rw [lastCtx_cons, ha]
          cases lastCtx rest <;> rfl
        have hopts : builtOpts (p :: rest) = builtOpts rest := by
          rw [builtOpts_cons, ha]
          rfl
        rw [hpick, hopts]
      | otherType =>
        rw [scanParams, if_neg hp, ha]
        show scanParams rest fs ctxArg opts
          = if 2 ≤ invCount (p :: rest) + (if fs then 1 else 0)
            then Except.error CmdError.invalidAnn
            else Except.ok (pickCtx (p :: rest) ctxArg,
              opts ++ builtOpts (p :: rest))
        rw [ih fs ctxArg opts, hcount]
        have hpick : pickCtx (p :: rest) ctxArg = pickCtx rest ctxArg := by
          unfold pickCtx
          rw [lastCtx_cons, ha]
          cases lastCtx rest <;> rfl
        have hopts : builtOpts (p :: rest) = builtOpts rest := by
          rw [builtOpts_cons, ha]
          rfl
        rw [hpick, hopts]

/-- Number of Context-annotated parameters. -/
def ctxCount (l : List Param) : Nat :=
  l.countP (fun p => match p.ann with | Ann.ctx _ => true | _ => false)

/-- A parameter list with two Context-annotated parameters. -/
def psC5 : List Param :=
  [{ name := "a", ann := Ann.ctx 0, hasDefault := false },
   { name := "b", ann := Ann.ctx 1, hasDefault := false }]

/-- C5 counterexample: a handler annotating two parameters with a
Context-capable type constructs successfully — no definition error is
raised — and the later parameter silently overwrites the earlier binding. -/
theorem c5_counterexample :
    1 < ctxCount psC5
    ∧ commandInit (some "d") psC5
        = Except.ok { ctxArg := ("b", 1), options := [] } :=
  ⟨by decide, rfl⟩

/-- C5 amended: construction fails with the missing-context error exactly
when no parameter is Context annotated; when one or more are, construction
succeeds and the last Context-annotated parameter is bound as the context
parameter (assuming a valid description and at most one tolerated invalid
required parameter). -/
theorem c5_ctx_binding (d : String) (hd : ¬ d = "") (params : List Param)
    (hinv : invCount params ≤ 1) :
    (commandInit (some d) params = Except.error CmdError.missingContext
       ↔ lastCtx params = none)
    ∧ ∀ dat, commandInit (some d) params = Except.ok dat →
        some dat.ctxArg = lastCtx params := by
  have hzero : (if (false : Bool) = true then (1:Nat) else 0) = 0 := rfl
  simp only [commandInit]
  rw [if_neg hd, scanParams_eq, hzero, Nat.add_zero]
  rw [if_neg (by omega)]
  unfold pickCtx
  cases h : lastCtx params with
  | none =>
    constructor
    · simp
    · intro dat hdat
      exact absurd hdat (by simp)
  | some c =>
    constructor
    · simp
    · intro dat hdat
      simp only [Except.ok.injEq] at hdat
      rw [← hdat]

theorem c5_ctx_binding_witness :
    some (("b", 1) : String × Nat) = lastCtx psC5 :=
  (c5_ctx_binding "d" (by decide) psC5 (by decide)).2
    { ctxArg := ("b", 1), options := [] } rfl

/-- A prototype Option whose required flag is already true. -/
def protoReq : SOption :=
  { name := none, description := "d", required := true, choices := [] }

/-- C6 counterexample: for a parameter with a default value annotated with
a prototype whose required flag is true, the stored clone keeps required
true, so the required flag of the clone is not equivalent to the parameter
lacking a default as the claim states. -/
theorem c6_counterexample :
    ¬ ((processOptionParam protoReq "x" true).2.required = false) := by
  decide

/-- C6 amended: the stored option is an independent clone — the prototype
comes out unmodified; required is set to true when the parameter has no
default and keeps the prototype value otherwise; the name is taken from the
parameter name exactly when the prototype left it unset; all other fields
are copied. -/
theorem c6_clone_fields (proto : SOption) (pname : String) (hasDefault : Bool) :
    (processOptionParam proto pname hasDefault).1 = proto
    ∧ (processOptionParam proto pname hasDefault).2.required
        = (if hasDefault then proto.required else true)
    ∧ (processOptionParam proto pname hasDefault).2.name
        = (if proto.name = none then some pname else proto.name)
    ∧ (processOptionParam proto pname hasDefault).2.choices = proto.choices
    ∧ (processOptionParam proto pname hasDefault).2.description
        = proto.description := by
  unfold processOptionParam storeOption SOption.clone
  cases hasDefault <;> cases hn : proto.name <;> simp [hn]

/-- C7: with a valid description, construction raises the definition error
for a required parameter without a valid annotation exactly when at least
two such parameters occur: the first one is tolerated as an assumed self
receiver, only a second one fails. -/
theorem c7_untyped_required (d : String) (hd : ¬ d = "") (params : List Param) :
    commandInit (some d) params = Except.error CmdError.invalidAnn
      ↔ 2 ≤ invCount params := by
  have hzero : (if (false : Bool) = true then (1:Nat) else 0) = 0 := rfl
  simp only [commandInit]
  rw [if_neg hd, scanParams_eq, hzero, Nat.add_zero]
  by_cases h : 2 ≤ invCount params
  · rw [if_pos h]
    simp [h]
  · rw [if_neg h]
    unfold pickCtx
    cases hl : lastCtx params <;> simp [h]

/-- A parameter list with one Context parameter and two required
parameters without any valid annotation. -/
def psBad : List Param :=
  [{ name := "c", ann := Ann.ctx 0, hasDefault := false },
   { name := "x", ann := Ann.empty, hasDefault := false },
   { name := "y", ann := Ann.otherType, hasDefault := false }]

/-- A parameter list with one Context parameter and a single required
parameter without a valid annotation, tolerated as the self receiver. -/
def psSelf : List Param :=
  [{ name := "self", ann := Ann.empty, hasDefault := false },
   { name := "c", ann := Ann.ctx 0, hasDefault := false }]

theorem c7_untyped_required_witness :
    commandInit (some "d") psBad = Except.error CmdError.invalidAnn
    ∧ ¬ (commandInit (some "d") psSelf
          = Except.error CmdError.invalidAnn) :=
  ⟨(c7_untyped_required "d" (by decide) psBad).mpr (by decide),
   fun hcontra =>
     absurd ((c7_untyped_required "d" (by decide) psSelf).mp hcontra)
       (by decide)⟩

/-- Python dict assignment on an association list: replace the value at an
existing key in place, otherwise append the pair at the end. -/
def dictSet {K V : Type} [DecidableEq K] :
    List (K × V) → K → V → List (K × V)
| [], k, v => [(k, v)]
| p :: rest, k, v =>
  if p.1 = k then (k, v) :: rest else p :: dictSet rest k v

/-- Python dict update: fold each update entry into the base dict. -/
def dictUpdate {K V : Type} [DecidableEq K]
    (d : List (K × V)) (u : List (K × V)) : List (K × V) :=
  u.foldl (fun acc kv => dictSet acc kv.1 kv.2) d

/-- Python dict get: value of the first entry with the key, if any. -/
def dictGet {K V : Type} [DecidableEq K] : List (K × V) → K → Option V
| [], _ => none
| p :: rest, k => if p.1 = k then some p.2 else dictGet rest k

/-- Keys of an association list are pairwise distinct, the invariant every
Python dict maintains. -/
def keysNodup {K V : Type} (l : List (K × V)) : Prop :=
  (l.map Prod.fst).Nodup

instance {K V : Type} [DecidableEq K] (l : List (K × V)) :
    Decidable (keysNodup l) := by
  unfold keysNodup
  infer_instance

theorem dictGet_dictSet {K V : Type} [DecidableEq K]
    (d : List (K × V)) (k : K) (v : V) (q : K) :
    dictGet (dictSet d k v) q = if q = k then some v else dictGet d q := by
  induction d with
  | nil =>
    by_cases h : q = k
    · simp [dictSet, dictGet, h]
    · have : ¬ (k = q) := fun hc => h hc.symm
      simp [dictSet, dictGet, h, this]
  | cons p rest ih =>
    by_cases h1 : p.1 = k
    · rw [dictSet, if_pos h1]
      by_cases h2 : q = k
      · simp [dictGet, h2]
      · have hkq : ¬ (k = q) := fun hc => h2 hc.symm
        have hpq : ¬ (p.1 = q) := by rw [h1]; exact hkq
        simp [dictGet, hkq, hpq, h2]
    · rw [dictSet, if_neg h1]
      by_cases h2 : p.1 = q
      · have hqk : ¬ (q = k) := by
          intro hc; rw [hc] at h2; exact h1 h2
        simp [dictGet, h2, hqk]
      · simp [dictGet, h2, ih]

theorem dictGet_eq_none_of_not_mem {K V : Type} [DecidableEq K]
    (l : List (K × V)) (k : K) (h : k ∉ l.map Prod.fst) :
    dictGet l k = none := by
  induction l with
  | nil => rfl
  | cons p rest ih =>
    simp only [List.map_cons, List.mem_cons] at h
    push_neg at h
    have hne : ¬ (p.1 = k) := fun hc => h.1 hc.symm
    rw [dictGet, if_neg hne]
    exact ih h.2

theorem dictGet_dictUpdate {K V : Type} [DecidableEq K]
    (u : List (K × V)) : ∀ (d : List (K × V)) (k : K), keysNodup u →
    dictGet (dictUpdate d u) k =
      match dictGet u k with
      | some v => some v
      | none => dictGet d k := by
  induction u with
  | nil => intro d k _; rfl
  | cons p rest ih =>
    intro d k hnd
    have hnd2 : keysNodup rest := by
      unfold keysNodup at hnd ⊢
      simp only [List.map_cons, List.nodup_cons] at hnd
      exact hnd.2
    have hstep : dictUpdate d (p :: rest)
        = dictUpdate (dictSet d p.1 p.2) rest := rfl
    rw [hstep, ih (dictSet d p.1 p.2) k hnd2]
    by_cases hk : k = p.1
    · have hmem : p.1 ∉ rest.map Prod.fst := by
        unfold keysNodup at hnd
        simp only [List.map_cons, List.nodup_cons] at hnd
        exact hnd.1
      rw [hk]
      rw [dictGet_eq_none_of_not_mem rest p.1 hmem]
      rw [dictGet, if_pos rfl]
      rw [dictGet_dictSet, if_pos rfl]
    · have hne : ¬ (p.1 = k) := fun hc => hk hc.symm
      rw [dictGet, if_neg hne]
      cases h : dictGet rest k
      · rw [dictGet_dictSet, if_neg hk]
      · rfl

/-- One entry of the wire permissions list: target id, target type value,
and the boolean grant. -/
structure PermEntry where
  id : Int
  type : Nat
  permission : Bool
deriving DecidableEq

/-- The wire shape returned by Command.perms_dict: the command id and the
flattened permission entries. -/
structure PermsDict where
  id : Option Int
  permissions : List PermEntry
deriving DecidableEq

/-- Command.perms_dict: copy the None-scoped (global) overrides, update
them with the overrides of the requested guild so the guild-specific value
wins, and flatten each ((target, type), allow) pair into a wire entry. -/
def perms_dict (cmdId : Option Int)
    (permissions : List (Option Int × List ((Int × Nat) × Bool)))
    (guild_id : Option Int) : PermsDict :=
  let final := dictUpdate ((dictGet permissions none).getD [])
                          ((dictGet permissions guild_id).getD [])
  { id := cmdId,
    permissions := final.map
      (fun e => { id := e.1.1, type := e.1.2, permission := e.2 }) }

/-- First matching permission entry for a target id and type. -/
def entryFor : List PermEntry → Int → Nat → Option Bool
| [], _, _ => none
| e :: rest, oid, ty =>
  if e.id = oid ∧ e.type = ty then some e.permission else entryFor rest oid ty

theorem entryFor_map (l : List ((Int × Nat) × Bool)) (oid : Int) (ty : Nat) :
    entryFor (l.map (fun e => PermEntry.mk e.1.1 e.1.2 e.2)) oid ty
      = dictGet l (oid, ty) := by
  induction l with
  | nil => rfl
  | cons e rest ih =>
    rw [List.map_cons, entryFor, dictGet]
    by_cases h : e.1 = (oid, ty)
    · have h2 : e.1.1 = oid ∧ e.1.2 = ty := by
        rw [Prod.ext_iff] at h
        exact h
      rw [if_pos h2, if_pos h]
    · have h2 : ¬ (e.1.1 = oid ∧ e.1.2 = ty) :=
        fun hc => h (Prod.ext_iff.mpr hc)
      rw [if_neg h2, if_neg h, ih]

/-- C8: perms_dict returns the wire record of the command id with the
global (None-scoped) overrides overlaid by the guild-specific ones, the
guild-specific value winning on conflict: a target granted globally and
denied for a guild yields false for that guild and true for any other
guild carrying no override for the target. -/
theorem c8_perms_merge (cmdId : Option Int)
    (permissions : List (Option Int × List ((Int × Nat) × Bool)))
    (g g2 : Option Int) (oid : Int) (ty : Nat)
    (hgn : keysNodup ((dictGet permissions g).getD []))
    (hg2n : keysNodup ((dictGet permissions g2).getD []))
    (hglob : dictGet ((dictGet permissions none).getD []) (oid, ty) = some true)
    (hg : dictGet ((dictGet permissions g).getD []) (oid, ty) = some false)
    (hg2 : dictGet ((dictGet permissions g2).getD []) (oid, ty) = none) :
    (perms_dict cmdId permissions g).id = cmdId
    ∧ entryFor (perms_dict cmdId permissions g).permissions oid ty = some false
    ∧ entryFor (perms_dict cmdId permissions g2).permissions oid ty
        = some true := by
  refine ⟨rfl, ?_, ?_⟩
  · show entryFor ((dictUpdate ((dictGet permissions none).getD [])
        ((dictGet permissions g).getD [])).map
          (fun e => PermEntry.mk e.1.1 e.1.2 e.2)) oid ty = some false
    rw [entryFor_map]
    rw [dictGet_dictUpdate _ _ _ hgn]
    rw [hg]
  · show entryFor ((dictUpdate ((dictGet permissions none).getD [])
        ((dictGet permissions g2).getD [])).map
          (fun e => PermEntry.mk e.1.1 e.1.2 e.2)) oid ty = some true
    rw [entryFor_map]
    rw [dictGet_dictUpdate _ _ _ hg2n]
    rw [hg2, hglob]

/-- Concrete permission state: a global grant for target 5 of type 1 and a
guild 10 denial for the same target. -/
def permsW : List (Option Int × List ((Int × Nat) × Bool)) :=
  [(none, [((5, 1), true)]), (some 10, [((5, 1), false)])]

theorem c8_perms_merge_witness :
    entryFor (perms_dict (some 99) permsW (some 10)).permissions 5 1
        = some false
    ∧ entryFor (perms_dict (some 99) permsW (some 11)).permissions 5 1
        = some true :=
  ⟨(c8_perms_merge (some 99) permsW (some 10) (some 11) 5 1
      (by decide) (by decide) (by decide) (by decide) (by decide)).2.1,
   (c8_perms_merge (some 99) permsW (some 10) (some 11) 5 1
      (by decide) (by decide) (by decide) (by decide) (by decide)).2.2⟩

/-- A registered component callback: a model identity, the optional use
budget, the result its check returns, and its matcher over the custom id of
an inbound component event. -/
structure CompCallback where
  cid : Nat
  max_uses : Option Int
  checkRes : PyVal
  matchesEv : String → Bool

/-- The bot state the component mechanism touches: the active callback set
and the log of dispatched events. -/
structure BotState where
  callbacks : List CompCallback
  dispatched : List (String × Nat)

/-- Ordered steps of one ComponentCallback.invoke run. -/
inductive CStep
| checkRan
| deregistered
| handlerRun
deriving DecidableEq

/-- ComponentCallback.deregister: discard the callback from the bot active
set and dispatch the deregistration event. -/
def deregister (cb : CompCallback) (bot : BotState) : BotState :=
  { callbacks := bot.callbacks.filter (fun c => decide (¬ c.cid = cb.cid)),
    dispatched := bot.dispatched
      ++ [("component_callback_deregister", cb.cid)] }

/-- ComponentCallback.invoke: raise a CheckFailure when the check returns
the False value; otherwise decrement max_uses when set, deregister once it
reaches zero, and only then run the handler. Returns the updated callback,
the updated bot state and the ordered step trace. -/
def CompCallback.invoke (cb : CompCallback) (bot : BotState) :
    Except String (CompCallback × BotState × List CStep) :=
  if cb.checkRes = PyVal.vFalse then
    Except.error "The check function for this callback failed."
  else
    match cb.max_uses with
    | some n =>
      let cb2 : CompCallback := { cb with max_uses := some (n - 1) }
      if n - 1 ≤ 0 then
        Except.ok (cb2, deregister cb2 bot,
          [CStep.checkRan, CStep.deregistered, CStep.handlerRun])
      else
        Except.ok (cb2, bot, [CStep.checkRan, CStep.handlerRun])
    | none => Except.ok (cb, bot, [CStep.checkRan, CStep.handlerRun])

/-- Modelled from the spec: the registry offers an inbound component event
to every registered callback whose matcher returns true (the registry side
lives in bot.py, which is not under src). -/
def matchingCallbacks (bot : BotState) (ev : String) : List CompCallback :=
  bot.callbacks.filter (fun c => c.matchesEv ev)

/-- C9: for a callback constructed with max_uses one, a matching invocation
whose check passes decrements max_uses to zero, removes the callback from
the bot active set and dispatches the deregistration event strictly before
the handler step, so that a second identical event matches no active
callback when no other registered callback matches it. -/
theorem c9_single_use (cb : CompCallback) (bot : BotState) (ev : String)
    (h1 : cb.max_uses = some 1)
    (h2 : ¬ cb.checkRes = PyVal.vFalse)
    (h3 : ∀ c ∈ bot.callbacks, c.matchesEv ev = true → c.cid = cb.cid) :
    ∃ bot2, cb.invoke bot = Except.ok
        ({ cb with max_uses := some 0 }, bot2,
         [CStep.checkRan, CStep.deregistered, CStep.handlerRun])
    ∧ bot2.callbacks = bot.callbacks.filter (fun c => decide (¬ c.cid = cb.cid))
    ∧ bot2.dispatched = bot.dispatched
        ++ [("component_callback_deregister", cb.cid)]
    ∧ matchingCallbacks bot2 ev = [] := by
  refine ⟨deregister { cb with max_uses := some 0 } bot, ?_, rfl, rfl, ?_⟩
  · rw [CompCallback.invoke, if_neg h2, h1]
    norm_num
  · rw [matchingCallbacks]
    show (bot.callbacks.filter
      (fun c => decide (¬ c.cid = cb.cid))).filter (fun c => c.matchesEv ev) = []
    rw [List.filter_filter]
    apply List.filter_eq_nil_iff.mpr
    intro c hc
    by_cases hm : c.matchesEv ev = true
    · have := h3 c hc hm
      simp [this, hm]
    · simp [hm]

/-- A concrete single-use callback matching the custom id go, and a bot
whose active set holds only that callback. -/
def cbW : CompCallback :=
  { cid := 3, max_uses := some 1, checkRes := PyVal.vTrue,
    matchesEv := fun s => decide (s = "go") }

def botW : BotState := { callbacks := [cbW], dispatched := [] }

theorem c9_single_use_witness :
    ∃ bot2, cbW.invoke botW = Except.ok
        ({ cbW with max_uses := some 0 }, bot2,
         [CStep.checkRan, CStep.deregistered, CStep.handlerRun])
    ∧ bot2.callbacks = botW.callbacks.filter
        (fun c => decide (¬ c.cid = cbW.cid))
    ∧ bot2.dispatched = botW.dispatched
        ++ [("component_callback_deregister", cbW.cid)]
    ∧ matchingCallbacks bot2 "go" = [] :=
  c9_single_use cbW botW "go" rfl (by decide)
    (fun c hc _ => by
      have : c = cbW := by simpa [botW] using hc
      rw [this])

/-- The five button styles; LINK is the special one. -/
inductive ButtonStyle
| primary
| secondary
| success
| danger
| link
deriving DecidableEq

/-- Python falsiness of an optional string: absent or empty. -/
def strFalsy : Option String → Bool
| none => true
| some s => decide (s = "")

/-- The constructed button record. -/
structure ButtonData where
  style : ButtonStyle
  label : Option String
  emoji : Option String
  custom_id : Option String
  url : Option String
  disabled : Bool
deriving DecidableEq

/-- Button constructor: a LINK-style button forbids a custom_id and
requires a truthy url; any other style requires a truthy custom_id and
forbids a url; at least one of label and emoji must be present. -/
def buttonInit (style : ButtonStyle) (label emoji custom_id url : Option String)
    (disabled : Bool) : Except String ButtonData :=
  if style = ButtonStyle.link then
    if ¬ custom_id = none then
      Except.error "custom_id not allowed on LINK-style Buttons"
    else if strFalsy url then
      Except.error "LINK-style Buttons must have a url"
    else if label = none ∧ emoji = none then
      Except.error "Button must have at least one of label or emoji"
    else Except.ok ⟨style, label, emoji, custom_id, url, disabled⟩
  else
    if strFalsy custom_id then
      Except.error "Non-LINK Buttons must have a custom_id"
    else if ¬ url = none then
      Except.error "url not allowed on non-LINK Buttons"
    else if label = none ∧ emoji = none then
      Except.error "Button must have at least one of label or emoji"
    else Except.ok ⟨style, label, emoji, custom_id, url, disabled⟩

/-- Whether Button construction raises a TypeError. -/
def buttonFails (style : ButtonStyle) (label emoji custom_id url : Option String)
    (disabled : Bool) : Bool :=
  match buttonInit style label emoji custom_id url disabled with
  | Except.error _ => true
  | Except.ok _ => false

/-- The failure condition exactly as the claim states it, reading absent
and supplied as none and not none. -/
def c10ClaimCond (style : ButtonStyle)
    (label emoji custom_id url : Option String) : Prop :=
  (style = ButtonStyle.link ∧ (¬ custom_id = none ∨ url = none))
  ∨ (¬ style = ButtonStyle.link ∧ (custom_id = none ∨ ¬ url = none))
  ∨ (label = none ∧ emoji = none)

/-- C10 counterexample: a LINK-style button with a label, no custom_id and
an empty-string url raises a TypeError although the claim condition does
not hold there, because the code tests the url for falsiness, not only for
absence. -/
theorem c10_counterexample :
    buttonFails ButtonStyle.link (some "x") none none (some "") false = true
    ∧ ¬ c10ClaimCond ButtonStyle.link (some "x") none none (some "") := by
  constructor
  · decide
  · unfold c10ClaimCond
    decide

/-- C10 amended: Button construction raises a TypeError exactly when the
style is LINK and a custom_id is supplied or the url is absent or empty; or
the style is not LINK and the custom_id is absent or empty or a url is
supplied; or both label and emoji are absent. -/
theorem c10_button_errors (style : ButtonStyle)
    (label emoji custom_id url : Option String) (disabled : Bool) :
    buttonFails style label emoji custom_id url disabled = true
      ↔ ((style = ButtonStyle.link
            ∧ (¬ custom_id = none ∨ strFalsy url = true))
         ∨ (¬ style = ButtonStyle.link
            ∧ (strFalsy custom_id = true ∨ ¬ url = none))
         ∨ (label = none ∧ emoji = none)) := by
  unfold buttonFails buttonInit
  by_cases hs : style = ButtonStyle.link
  · rw [if_pos hs]
    by_cases hc : custom_id = none
    · rw [if_neg (by simp [hc])]
      by_cases hu : strFalsy url = true
      · rw [if_pos hu]
        simp [hs, hu]
      · rw [if_neg hu]
        by_cases hl : label = none ∧ emoji = none
        · rw [if_pos hl]
          simp [hl]
        · rw [if_neg hl]
          simp [hs, hc, hu, hl]
    · rw [if_pos hc]
      simp [hs, hc]
  · rw [if_neg hs]
    by_cases hc : strFalsy custom_id = true
    · rw [if_pos hc]
      simp [hs, hc]
    · rw [if_neg hc]
      by_cases hu : url = none
      · rw [if_neg (by simp [hu])]
        by_cases hl : label = none ∧ emoji = none
        · rw [if_pos hl]
          simp [hl]
        · rw [if_neg hl]
          simp [hs, hc, hu, hl]
      · rw [if_pos hu]
        simp [hs, hc, hu]

end Slash
